import Mathlib

/-!
Verification development for the ent state-migration harness.

The commands of cmd/ent/main.go are shallowly embedded as Lean functions.
External effects (the chain client, the durable store, the migration
library) enter as explicit environment records carrying the outcome each
external call would produce; command output is modelled structurally as a
list of output lines, and the calls a command makes are recorded as events.
Components of this repository that are not part of the source file
(the buffered store's flush, the chain-state iterator, the invariant
checker, the migration pipeline) are modelled from the specification and
marked as such in their doc comments.
-/

/-- Content identifiers (go-cid values), modelled as naturals. -/
abbrev Cid := Nat

/-- The undefined cid (cid.Undef), the zero value of the Cid type. -/
def cidUndef : Cid := 0

/-- Errors returned by Go calls.  A wrapped error models an
xerrors.Errorf call whose format string ends in a w-verb; the tag number
identifies the wrapping message (0: failed to flush state tree to disk,
1: failed to load tree, 2: failed to check state invariants). -/
inductive GoError
  | storeErr (code : Nat)
  | transformErr (key : Nat)
  | flushBackendErr (code : Nat)
  | checkFailedErr (code : Nat)
  | wrapped (tag : Nat) (inner : GoError)
deriving DecidableEq, Repr

/-- The lib.StateRoot envelope: a versioned pointer record whose Actors
field is the tree-root content identifier. -/
structure StateRoot where
  Version : Nat
  Actors : Cid
deriving DecidableEq, Repr

/-- The cbor store as seen through a Get of a StateRoot envelope at a cid:
either the decoded envelope or the store's error. -/
abbrev EnvelopeStore := Cid → Except GoError StateRoot

/-- Embeds loadStateRoot of cmd/ent/main.go: read the StateRoot envelope at
the given cid; on failure return cid.Undef together with the store's error,
otherwise the envelope's Actors field and no error. -/
def loadStateRoot (store : EnvelopeStore) (stateRoot : Cid) : Cid × Option GoError :=
  match store stateRoot with
  | .error e => (cidUndef, some e)
  | .ok treeTop => (treeTop.Actors, none)

/-- An actor entry of a v2 state tree, reduced to the fields the checked
invariants inspect: a stable address and a balance. -/
structure ActorEntry where
  addr : Nat
  balance : Int
deriving DecidableEq, Repr

/-- A loaded v2 state tree: its finite list of actor entries. -/
abbrev StateTreeV2 := List ActorEntry

/-- The outcome of states2.LoadTree at a given root cid (external loader). -/
abbrev TreeStore := Cid → Except GoError StateTreeV2

/-- Embeds loadStateTreeV2 of cmd/ent/main.go: resolve the envelope via
loadStateRoot, then load the tree at the extracted tree root. -/
def loadStateTreeV2 (estore : EnvelopeStore) (tstore : TreeStore) (c : Cid) :
    Except GoError StateTreeV2 :=
  match loadStateRoot estore c with
  | (_, some e) => .error e
  | (root, none) => tstore root

/-- A violation message accumulated by the invariant checker. -/
inductive Violation
  | negativeBalance (addr : Nat) (balance : Int)
  | sumMismatch (expected actual : Int)
deriving DecidableEq, Repr

/-- builtin2.TotalFilecoin in attoFIL: two billion whole FIL. -/
def TotalFilecoin : Int := 2000000000 * 1000000000000000000

/-- Modelled from the spec: states2.CheckStateInvariants is external to
this repository.  Per section 4.4 it performs one full traversal of the
tree, checking the per-entry local invariant (non-negative balance) and
the global invariant (total balance equals the expected aggregate),
appending every violation to the report without stopping at the first.
The traversal is a single left fold accumulating the report and the
running balance total; the global check is emitted after the walk. -/
def checkStateInvariants (tree : StateTreeV2) (expectedBalance : Int) : List Violation :=
  let r := tree.foldl
    (fun (acc : List Violation × Int) a =>
      (if a.balance < 0 then acc.1 ++ [.negativeBalance a.addr a.balance] else acc.1,
       acc.2 + a.balance))
    ([], 0)
  if r.2 = expectedBalance then r.1 else r.1 ++ [.sumMismatch expectedBalance r.2]

/-- A sector record as delivered on the export channel, reduced to an
identifying payload. -/
structure SectorInfo where
  miner : Nat
  sectorNumber : Nat
deriving DecidableEq, Repr

/-- The zero value of SectorInfo, as received from a closed Go channel. -/
def zeroSectorInfo : SectorInfo := { miner := 0, sectorNumber := 0 }

/-- The lib.BalanceInfo record consumed by the balances command. -/
structure BalanceInfo where
  Balance : Int
  LockedFunds : Int
  PreCommitDeposits : Int
  InitialPledge : Int
deriving DecidableEq, Repr

/-- The migration9.Config fields the driver sets. -/
structure MigrationConfig where
  MaxWorkers : Nat
  JobQueueSize : Nat
  ResultQueueSize : Nat
  ProgressLogPeriodMinutes : Nat
deriving DecidableEq, Repr

/-- The configuration fixed inside runMigrateV2ToV3Cmd: eight workers, a
job queue of one hundred, a result queue of ten, progress every five
minutes. -/
def migration9Cfg : MigrationConfig :=
  { MaxWorkers := 8, JobQueueSize := 100, ResultQueueSize := 10
    ProgressLogPeriodMinutes := 5 }

/-- One link yielded by the chain-state iterator (lib.IterVal). -/
structure IterVal where
  Height : Int
  State : Cid
deriving DecidableEq, Repr

/-- The zero value of IterVal: epoch zero and the undefined cid, as left in
the pre-allocated roots slice by make. -/
def zeroIterVal : IterVal := { Height := 0, State := cidUndef }

/-- One line of command output, represented structurally. -/
inductive OutLine
  | migrated (inRoot outRoot : Cid) (duration : Nat)
  | flushTime (root : Cid) (duration : Nat)
  | validationOk (root : Cid) (duration : Nat)
  | validationErrs (root : Cid) (duration : Nat) (msgs : List Violation)
  | epochRoot (height : Int) (state : Cid)
  | minerDebt (addr : Nat) (debt : Int)
  | burntFunds (amount : Int)
  | totalDebt (amount : Int)
  | balanceLine (addr : Nat) (locked : Int) (available : Int)
  | jsonSector (s : SectorInfo)
deriving DecidableEq, Repr

/-- An observable step of a command: a printed line, or a call into the
migration library or the buffered store. -/
inductive Event
  | printed (line : OutLine)
  | migrateCalled (root : Cid) (height : Int) (cfg : MigrationConfig)
  | migrate7Called (root : Cid) (height : Int)
  | flushCalled (root : Cid)
deriving DecidableEq, Repr

/-- Whether an event is a call to FlushBufferedState. -/
def Event.isFlush : Event → Bool
  | .flushCalled _ => true
  | _ => false

/-- True when a trace contains no call to FlushBufferedState. -/
def noFlushEvents (evs : List Event) : Bool :=
  evs.all (fun ev => !ev.isFlush)

/-- External outcomes consumed by validateV2: the error return of the
invariant check (its report is computed by checkStateInvariants), and the
two clock samples taken immediately before and immediately after the
check call. -/
structure ValidateEnv where
  checkErr : Option GoError
  checkStart : Nat
  checkEnd : Nat

/-- Embeds validateV2 of cmd/ent/main.go: load the tree (through the
StateRoot envelope when wrapped, directly otherwise), run the invariant
check against TotalFilecoin, and print either a success line or the
complete accumulated report; in both cases the function returns no
error.  Load and check failures are returned wrapped, before any
validation output. -/
def validateV2 (estore : EnvelopeStore) (tstore : TreeStore) (priorEpoch : Int)
    (stateRoot : Cid) (wrapped : Bool) (env : ValidateEnv) :
    List Event × Option GoError :=
  match (if wrapped then loadStateTreeV2 estore tstore stateRoot else tstore stateRoot) with
  | .error e => ([], some (.wrapped 1 e))
  | .ok tree =>
    match env.checkErr with
    | some e => ([], some (.wrapped 2 e))
    | none =>
      let acc := checkStateInvariants tree TotalFilecoin
      let duration := env.checkEnd - env.checkStart
      if acc.isEmpty then
        ([.printed (.validationOk stateRoot duration)], none)
      else
        ([.printed (.validationErrs stateRoot duration acc)], none)

/-- External outcomes consumed by the migrate commands: the store-loading
error if any, the envelope store, the outcome of the migration call, the
outcome of the flush call, the environment of the optional validation
step, and the clock samples taken immediately around the migration call
and immediately around the flush call. -/
structure MigrateEnv where
  loadStoreErr : Option GoError
  store : EnvelopeStore
  tstore : TreeStore
  migrateResult : Except GoError Cid
  migStart : Nat
  migEnd : Nat
  flushErr : Option GoError
  flushStart : Nat
  flushEnd : Nat
  valEnv : ValidateEnv

/-- Embeds runMigrateV2ToV3Cmd of cmd/ent/main.go after argument parsing:
load the store, resolve the state root through loadStateRoot, run the
v2-to-v3 migration under the fixed migration9Cfg, print the migrated root
with the migration duration, flush the buffered state and print the flush
duration, then optionally validate.  Each failing step returns its error
at once: a migration error is returned unwrapped and before any flush
call; a flush error is returned wrapped with tag 0. -/
def runMigrateV2ToV3Cmd (stateRootInRaw : Cid) (height : Int) (validate : Bool)
    (env : MigrateEnv) : List Event × Option GoError :=
  match env.loadStoreErr with
  | some e => ([], some e)
  | none =>
    match loadStateRoot env.store stateRootInRaw with
    | (_, some e) => ([], some e)
    | (stateRootIn, none) =>
      match env.migrateResult with
      | .error e => ([.migrateCalled stateRootIn height migration9Cfg], some e)
      | .ok stateRootOut =>
        let ev1 := [Event.migrateCalled stateRootIn height migration9Cfg,
                    Event.printed (.migrated stateRootIn stateRootOut (env.migEnd - env.migStart))]
        match env.flushErr with
        | some e => (ev1 ++ [.flushCalled stateRootOut], some (.wrapped 0 e))
        | none =>
          let ev2 := ev1 ++ [Event.flushCalled stateRootOut,
                    Event.printed (.flushTime stateRootOut (env.flushEnd - env.flushStart))]
          if validate then
            let v := validateV2 env.store env.tstore height stateRootOut false env.valEnv
            (ev2 ++ v.1, v.2)
          else (ev2, none)

/-- Embeds runMigrateV1ToV2Cmd of cmd/ent/main.go after argument parsing:
identical control flow to the v2-to-v3 command, calling the v1-to-v2
migration under migration7's default configuration (external to this
repository, so the call event carries no configuration). -/
def runMigrateV1ToV2Cmd (stateRootInRaw : Cid) (height : Int) (validate : Bool)
    (env : MigrateEnv) : List Event × Option GoError :=
  match env.loadStoreErr with
  | some e => ([], some e)
  | none =>
    match loadStateRoot env.store stateRootInRaw with
    | (_, some e) => ([], some e)
    | (stateRootIn, none) =>
      match env.migrateResult with
      | .error e => ([.migrate7Called stateRootIn height], some e)
      | .ok stateRootOut =>
        let ev1 := [Event.migrate7Called stateRootIn height,
                    Event.printed (.migrated stateRootIn stateRootOut (env.migEnd - env.migStart))]
        match env.flushErr with
        | some e => (ev1 ++ [.flushCalled stateRootOut], some (.wrapped 0 e))
        | none =>
          let ev2 := ev1 ++ [Event.flushCalled stateRootOut,
                    Event.printed (.flushTime stateRootOut (env.flushEnd - env.flushStart))]
          if validate then
            let v := validateV2 env.store env.tstore height stateRootOut false env.valEnv
            (ev2 ++ v.1, v.2)
          else (ev2, none)

/-- Modelled from the spec: lib.Chain.NewChainStateIterator is not under
src.  Per section 4.2 the walker yields a finite backward sequence of
(height, stateRoot) pairs, one per block, tip first, ending at genesis;
the iterator is modelled by the list of pairs it has yet to yield, so
Done is emptiness, Val the head and Step the tail.  fillRoots embeds the
gathering loop of runRootsCmd: the roots slice is pre-allocated with num
zero values by make, slot i is overwritten with the current value while
the iterator is not done and i is below num, and the remaining slots keep
the zero value. -/
def fillRoots : List IterVal → Nat → List IterVal
  | _, 0 => []
  | [], n + 1 => List.replicate (n + 1) zeroIterVal
  | v :: rest, n + 1 => v :: fillRoots rest n

/-- Embeds runRootsCmd of cmd/ent/main.go after argument parsing: gather
into the pre-allocated slice, then print one epoch line per slice slot. -/
def runRootsCmd (chain : List IterVal) (num : Nat) : List OutLine :=
  (fillRoots chain num).map (fun v => .epochRoot v.Height v.State)

/-- The output loop of runExportSectorsCmd: receive from the sectors
channel until the received ok flag is false; the receive on the closed
channel yields the zero-valued record with a false flag, and that record
is still marshalled and printed before the loop stops.  The channel is
modelled by the list of records delivered before close. -/
def exportLoop : List SectorInfo → List OutLine
  | [] => [.jsonSector zeroSectorInfo]
  | s :: rest => .jsonSector s :: exportLoop rest

/-- External outcomes consumed by runExportSectorsCmd: the store-loading
error if any, the two stores backing loadStateTreeV2, and the error of
the ExportSectors call if it fails before returning a channel. -/
structure ExportEnv where
  loadStoreErr : Option GoError
  estore : EnvelopeStore
  tstore : TreeStore
  exportErr : Option GoError

/-- Embeds runExportSectorsCmd of cmd/ent/main.go after argument parsing:
load the store, load the wrapped state tree, obtain the sector channel,
then print one json line per received record. -/
def runExportSectorsCmd (stateRootInRaw : Cid) (env : ExportEnv)
    (sectors : List SectorInfo) : List OutLine × Option GoError :=
  match env.loadStoreErr with
  | some e => ([], some e)
  | none =>
    match loadStateTreeV2 env.estore env.tstore stateRootInRaw with
    | .error e => ([], some e)
    | .ok _ =>
      match env.exportErr with
      | some e => ([], some e)
      | none => (exportLoop sectors, none)

/-- The filtering loop of runDebtsCmd: for each miner whose available
balance is strictly negative, print the negated balance as its debt and
add it to the running total; other miners produce no output. -/
def debtsLoop (available : List (Nat × Int)) : List OutLine × Int :=
  available.foldl
    (fun acc p =>
      if p.2 < 0 then (acc.1 ++ [.minerDebt p.1 (-p.2)], acc.2 + -p.2) else acc)
    ([], 0)

/-- External outcomes consumed by runDebtsCmd: the store-loading error if
any, the burnt-funds lookup, and the miner available-balance map, given
in the iteration order the Go map range produces. -/
structure DebtsEnv where
  loadStoreErr : Option GoError
  burntFundsRes : Except GoError Int
  availableRes : Except GoError (List (Nat × Int))

/-- Embeds runDebtsCmd of cmd/ent/main.go after argument parsing: load the
store, fetch burnt funds and the available-balance map, run the filtering
loop, then print the burnt-funds balance and the total debt. -/
def runDebtsCmd (env : DebtsEnv) : List OutLine × Option GoError :=
  match env.loadStoreErr with
  | some e => ([], some e)
  | none =>
    match env.burntFundsRes with
    | .error e => ([], some e)
    | .ok bf =>
      match env.availableRes with
      | .error e => ([], some e)
      | .ok available =>
        let r := debtsLoop available
        (r.1 ++ [.burntFunds bf, .totalDebt r.2], none)

/-- The printing loop of runBalancesCmd: one line per miner carrying its
locked funds and its available balance, the balance minus the sum of
locked funds, pre-commit deposits and initial pledge. -/
def balancesLoop (balances : List (Nat × BalanceInfo)) : List OutLine :=
  balances.foldl
    (fun acc p =>
      acc ++ [.balanceLine p.1 p.2.LockedFunds
        (p.2.Balance - (p.2.LockedFunds + p.2.PreCommitDeposits + p.2.InitialPledge))])
    []

/-- External outcomes consumed by runBalancesCmd: the store-loading error
if any and the miner balance map, in Go map iteration order. -/
structure BalancesEnv where
  loadStoreErr : Option GoError
  balancesRes : Except GoError (List (Nat × BalanceInfo))

/-- Embeds runBalancesCmd of cmd/ent/main.go after argument parsing. -/
def runBalancesCmd (env : BalancesEnv) : List OutLine × Option GoError :=
  match env.loadStoreErr with
  | some e => ([], some e)
  | none =>
    match env.balancesRes with
    | .error e => ([], some e)
    | .ok balances => (balancesLoop balances, none)

/-- Identifier of a stored tree node. -/
abbrev NodeId := Nat

/-- A tree node held by the store: an opaque payload and the identifiers of
its child nodes, through which reachability is defined. -/
structure Node where
  payload : Nat
  children : List NodeId
deriving DecidableEq, Repr

/-- A finite association of node identifiers to nodes. -/
abbrev NodeMap := List (NodeId × Node)

/-- First-match lookup in a node map. -/
def findNode (i : NodeId) : NodeMap → Option Node
  | [] => none
  | (j, n) :: rest => if j = i then some n else findNode i rest

/-- Failures of a flush. -/
inductive StorageErr
  | missingNode (i : NodeId)
  | fuelExhausted
deriving DecidableEq, Repr

/-- Modelled from the spec: the buffered store of lib.Chain is not under
src.  Per section 4.1 the store holds an in-memory overlay of
not-yet-durable writes over the durable store; reads fall through the
overlay to the durable store. -/
structure BufStore where
  overlay : NodeMap
  durable : NodeMap
deriving DecidableEq, Repr

/-- Read through the buffered store: overlay first, then durable. -/
def bufGet (s : BufStore) (i : NodeId) : Option Node :=
  match findNode i s.overlay with
  | some n => some n
  | none => findNode i s.durable

/-- Modelled from the spec: the worklist of Flush.  Nodes already durable
are skipped without re-traversal (no redundant work); nodes found in the
overlay are appended to the durable store and their children enqueued; a
node found nowhere is a storage failure.  The fuel argument bounds the
number of worklist pops; flushFuel supplies a bound sufficient for any
store, since every pushed identifier is a child of an overlay node. -/
def flushGo : Nat → NodeMap → NodeMap → List NodeId → Except StorageErr NodeMap
  | _, _, durable, [] => .ok durable
  | 0, _, _, _ :: _ => .error .fuelExhausted
  | fuel + 1, overlay, durable, i :: rest =>
    match findNode i durable with
    | some _ => flushGo fuel overlay durable rest
    | none =>
      match findNode i overlay with
      | some n => flushGo fuel overlay (durable ++ [(i, n)]) (n.children ++ rest)
      | none => .error (.missingNode i)

/-- A pop budget sufficient to drain the worklist: one pop for the root
plus, for every overlay node, one pop for each of its children and one
spare. -/
def flushFuel (s : BufStore) : Nat :=
  1 + (s.overlay.map (fun p => p.2.children.length + 1)).sum

/-- Modelled from the spec: lib.Chain.FlushBufferedState is not under src.
Per sections 4.1 and 3 (lifecycle), Flush(rootId) durably persists every
node transitively reachable from rootId that is not already durable,
after which the overlay is cleared; on a failure the durable store is not
advertised as holding the root. -/
def FlushBufferedState (s : BufStore) (root : NodeId) : Except StorageErr BufStore :=
  match flushGo (flushFuel s) s.overlay s.durable [root] with
  | .error e => .error e
  | .ok durable' => .ok { overlay := [], durable := durable' }

/-- Keys of the migration pipeline's input tree. -/
abbrev MKey := Nat

/-- Modelled from the spec: an entry handled by the migration pipeline, an
opaque per-key payload (section 3). -/
structure MEntry where
  val : Nat
deriving DecidableEq, Repr

/-- Modelled from the spec: the opaque per-version transform, selected by
height and applied to each entry (section 4.3). -/
abbrev Transform := Int → MKey → MEntry → MEntry

/-- Modelled from the spec (section 4.3): the multiset of results the
workers produce: the producer walks the input tree in key order, one job
per entry, and each worker applies the transform to its job's entry,
keeping the key. -/
def migrateResults (input : List (MKey × MEntry)) (height : Int) (tf : Transform) :
    List (MKey × MEntry) :=
  input.map (fun p => (p.1, tf height p.1 p.2))

/-- Modelled from the spec (section 4.3): the collector inserts each
transformed entry into the output tree under construction.  The output
tree is a canonical key-sorted association list; insertion at an existing
key overwrites. -/
def insertEntry : List (MKey × MEntry) → MKey × MEntry → List (MKey × MEntry)
  | [], p => [p]
  | q :: rest, p =>
    if p.1 < q.1 then p :: q :: rest
    else if p.1 = q.1 then p :: rest
    else q :: insertEntry rest p

/-- The output tree built by the collector from the results in their
delivery order, which is the only schedule-dependent input: worker count
and queue capacities influence which delivery order occurs, never the set
of delivered results. -/
def buildTree (delivered : List (MKey × MEntry)) : List (MKey × MEntry) :=
  delivered.foldl insertEntry []

/-- The content identifier of an output tree: a deterministic digest of
its canonical node list. -/
def treeCid (t : List (MKey × MEntry)) : Cid :=
  t.foldl (fun h p => h * 1000003 + p.1 * 65537 + p.2.val) 7

/-- Strict key order on tree entries. -/
def keyLt (a b : MKey × MEntry) : Prop := a.1 < b.1

instance : IsAntisymm (MKey × MEntry) keyLt :=
  ⟨fun _ _ h1 h2 => absurd (Nat.lt_trans h1 h2) (Nat.lt_irrefl _)⟩

instance (a b : MKey × MEntry) : Decidable (keyLt a b) :=
  inferInstanceAs (Decidable (a.1 < b.1))

/-- A store answering every envelope read with version 3 and tree root 17
(concrete test fixture). -/
def wStoreOk : EnvelopeStore := fun _ => .ok { Version := 3, Actors := 17 }

/-- A store failing every envelope read (concrete test fixture). -/
def wStoreErr : EnvelopeStore := fun _ => .error (.storeErr 9)

/-- A tree store answering every load with the empty tree (fixture). -/
def wTStore : TreeStore := fun _ => .ok []

/-- A one-entry tree with a negative balance (fixture). -/
def wTree : StateTreeV2 := [{ addr := 7, balance := -3 }]

/-- A tree store answering every load with wTree (fixture). -/
def wVTStore : TreeStore := fun _ => .ok wTree

/-- A validation environment with a clean check and clock samples 2 and 5
(fixture). -/
def wValEnv : ValidateEnv := { checkErr := none, checkStart := 2, checkEnd := 5 }

/-- A migrate environment whose migration step fails with a transform
error on key 5 (fixture). -/
def wMigErrEnv : MigrateEnv :=
  { loadStoreErr := none, store := wStoreOk, tstore := wTStore
    migrateResult := .error (.transformErr 5), migStart := 0, migEnd := 4
    flushErr := none, flushStart := 4, flushEnd := 6, valEnv := wValEnv }

/-- A migrate environment whose every step succeeds (fixture). -/
def wMigOkEnv : MigrateEnv :=
  { loadStoreErr := none, store := wStoreOk, tstore := wTStore
    migrateResult := .ok 23, migStart := 10, migEnd := 14
    flushErr := none, flushStart := 14, flushEnd := 20, valEnv := wValEnv }

/-- A migrate environment whose envelope read fails (fixture). -/
def wMigStoreErrEnv : MigrateEnv :=
  { loadStoreErr := none, store := wStoreErr, tstore := wTStore
    migrateResult := .ok 23, migStart := 0, migEnd := 0
    flushErr := none, flushStart := 0, flushEnd := 0, valEnv := wValEnv }

/-- An export environment whose every setup step succeeds (fixture). -/
def wExportEnv : ExportEnv :=
  { loadStoreErr := none, estore := wStoreOk, tstore := wTStore, exportErr := none }

/-- A debts environment with burnt funds 7 and four miners, two of them in
debt (fixture). -/
def wDebtsEnv : DebtsEnv :=
  { loadStoreErr := none, burntFundsRes := .ok 7
    availableRes := .ok [(1, -5), (2, 3), (3, 0), (4, -2)] }

/-- A balances environment with one miner (fixture). -/
def wBalancesEnv : BalancesEnv :=
  { loadStoreErr := none
    balancesRes := .ok [(1, { Balance := 100, LockedFunds := 10
                              PreCommitDeposits := 5, InitialPledge := 20 })] }

/-- A buffered store with two overlay nodes, the root pointing at a child,
and nothing durable yet (fixture). -/
def wBufStore : BufStore :=
  { overlay := [(1, { payload := 10, children := [2] }),
                (2, { payload := 20, children := [] })]
    durable := [] }

/-- The store wBufStore after flushing root 1 (fixture). -/
def wBufStoreFlushed : BufStore :=
  { overlay := []
    durable := [(1, { payload := 10, children := [2] }),
                (2, { payload := 20, children := [] })] }

/-- A two-entry pipeline input tree (fixture). -/
def wInput : List (MKey × MEntry) := [(1, { val := 10 }), (2, { val := 20 })]

/-- A transform adding the key to the payload (fixture). -/
def wTf : Transform := fun _ k e => { val := e.val + k }

/-- The results of migrating wInput under wTf, delivered in key order
(fixture). -/
def wDeliveredA : List (MKey × MEntry) := [(1, { val := 11 }), (2, { val := 22 })]

/-- The same results delivered in the opposite order (fixture). -/
def wDeliveredB : List (MKey × MEntry) := [(2, { val := 22 }), (1, { val := 11 })]

/-- The gathering loop fills the slice with the first num yielded links and
leaves the zero value in every slot past the end of the chain. -/
theorem fillRoots_eq (chain : List IterVal) :
    ∀ num : Nat, fillRoots chain num
      = chain.take num ++ List.replicate (num - chain.length) zeroIterVal := by
  induction chain with
  | nil =>
    intro num
    cases num with
    | zero => simp [fillRoots]
    | succ n => simp [fillRoots]
  | cons v rest ih =>
    intro num
    cases num with
    | zero => simp [fillRoots]
    | succ n => simp [fillRoots, ih n]

/-- The export loop prints one json line per delivered record and then one
for the zero record received at channel close. -/
theorem exportLoop_eq (sectors : List SectorInfo) :
    exportLoop sectors = sectors.map OutLine.jsonSector ++ [OutLine.jsonSector zeroSectorInfo] := by
  induction sectors with
  | nil => simp [exportLoop]
  | cons s rest ih => simp [exportLoop, ih]

/-- Unfolding of the debts fold: appended debt lines for the strictly
negative balances and the running total of their negations. -/
theorem debtsLoop_go (l : List (Nat × Int)) :
    ∀ (acc : List OutLine) (t : Int),
      l.foldl
        (fun acc p =>
          if p.2 < 0 then (acc.1 ++ [.minerDebt p.1 (-p.2)], acc.2 + -p.2) else acc)
        (acc, t)
      = (acc ++ (l.filter (fun p => p.2 < 0)).map (fun p => OutLine.minerDebt p.1 (-p.2)),
         t + ((l.filter (fun p => p.2 < 0)).map (fun p => -p.2)).sum) := by
  induction l with
  | nil => intro acc t; simp
  | cons p rest ih =>
    intro acc t
    by_cases h : p.2 < 0
    · simp [h, ih, List.filter_cons, add_assoc]
    · simp [h, ih, List.filter_cons]

/-- The debts loop in closed form. -/
theorem debtsLoop_eq (available : List (Nat × Int)) :
    debtsLoop available
      = ((available.filter (fun p => p.2 < 0)).map (fun p => OutLine.minerDebt p.1 (-p.2)),
         ((available.filter (fun p => p.2 < 0)).map (fun p => -p.2)).sum) := by
  simp [debtsLoop, debtsLoop_go]

/-- Unfolding of the balances fold. -/
theorem balancesLoop_go (l : List (Nat × BalanceInfo)) :
    ∀ acc : List OutLine,
      l.foldl
        (fun acc p =>
          acc ++ [.balanceLine p.1 p.2.LockedFunds
            (p.2.Balance - (p.2.LockedFunds + p.2.PreCommitDeposits + p.2.InitialPledge))])
        acc
      = acc ++ l.map (fun p => OutLine.balanceLine p.1 p.2.LockedFunds
          (p.2.Balance - (p.2.LockedFunds + p.2.PreCommitDeposits + p.2.InitialPledge))) := by
  induction l with
  | nil => intro acc; simp
  | cons p rest ih => intro acc; simp [ih]

/-- The balances loop in closed form. -/
theorem balancesLoop_eq (balances : List (Nat × BalanceInfo)) :
    balancesLoop balances
      = balances.map (fun p => OutLine.balanceLine p.1 p.2.LockedFunds
          (p.2.Balance - (p.2.LockedFunds + p.2.PreCommitDeposits + p.2.InitialPledge))) := by
  simp [balancesLoop, balancesLoop_go]

/-- Unfolding of the invariant-check fold: the accumulated report lists the
negative-balance violations of all entries walked so far and the running
total is the sum of their balances. -/
theorem checkFold (tree : StateTreeV2) :
    ∀ (acc : List Violation) (t : Int),
      tree.foldl
        (fun (acc : List Violation × Int) a =>
          (if a.balance < 0 then acc.1 ++ [.negativeBalance a.addr a.balance] else acc.1,
           acc.2 + a.balance))
        (acc, t)
      = (acc ++ (tree.filter (fun a => a.balance < 0)).map
            (fun a => Violation.negativeBalance a.addr a.balance),
         t + (tree.map (fun a => a.balance)).sum) := by
  induction tree with
  | nil => intro acc t; simp
  | cons a rest ih =>
    intro acc t
    by_cases h : a.balance < 0
    · simp [h, ih, List.filter_cons, add_assoc]
    · simp [h, ih, List.filter_cons, add_assoc]

/-- C3 as stated is false: with a chain of one link and num = 2 the roots
command prints two epoch lines, not one line per yielded pair; the slot
past the end of the chain is printed as the zero value. -/
theorem rootsCmd_counterexample :
    ¬ ((runRootsCmd [({ Height := 5, State := 42 } : IterVal)] 2).length
        = min 2 [({ Height := 5, State := 42 } : IterVal)].length) := by
  decide

/-- C3 amended: the roots command prints one epoch line per (height,
stateRoot) pair yielded by the chain walker for the first min(num, chain
length) positions, in walk order, and prints the zero-valued line (epoch
zero, undefined cid) for every remaining slot of the pre-allocated slice,
so that exactly num lines are always printed. -/
theorem rootsCmd_output (chain : List IterVal) (num : Nat) :
    runRootsCmd chain num
      = (chain.take num).map (fun v => OutLine.epochRoot v.Height v.State)
        ++ List.replicate (num - chain.length) (OutLine.epochRoot 0 cidUndef)
  ∧ (runRootsCmd chain num).length = num := by
  constructor
  · simp [runRootsCmd, fillRoots_eq, zeroIterVal]
  · simp [runRootsCmd, fillRoots_eq]
    omega

/-- C4: the invariant check accumulates, in one full walk, every
negative-balance violation together with the global-sum violation when the
total differs from the expected aggregate; when the accumulated report is
non-empty the command prints the complete report and still returns no
error, and when it is empty it prints the success line. -/
theorem validate_accumulates_and_returns_success
    (estore : EnvelopeStore) (tstore : TreeStore) (priorEpoch : Int) (stateRoot : Cid)
    (wrapped : Bool) (env : ValidateEnv) (tree : StateTreeV2)
    (hload : (if wrapped then loadStateTreeV2 estore tstore stateRoot
              else tstore stateRoot) = .ok tree)
    (hchk : env.checkErr = none) :
    checkStateInvariants tree TotalFilecoin
      = (tree.filter (fun a => a.balance < 0)).map
          (fun a => Violation.negativeBalance a.addr a.balance)
        ++ (if (tree.map (fun a => a.balance)).sum = TotalFilecoin then []
            else [Violation.sumMismatch TotalFilecoin ((tree.map (fun a => a.balance)).sum)])
  ∧ (checkStateInvariants tree TotalFilecoin ≠ [] →
      validateV2 estore tstore priorEpoch stateRoot wrapped env
        = ([Event.printed (.validationErrs stateRoot (env.checkEnd - env.checkStart)
            (checkStateInvariants tree TotalFilecoin))], none))
  ∧ (checkStateInvariants tree TotalFilecoin = [] →
      validateV2 estore tstore priorEpoch stateRoot wrapped env
        = ([Event.printed (.validationOk stateRoot (env.checkEnd - env.checkStart))], none)) := by
  refine ⟨?_, ?_, ?_⟩
  · simp only [checkStateInvariants, checkFold]
    split <;> split <;> simp_all
  · intro hne
    simp [validateV2, hload, hchk, List.isEmpty_iff, hne]
  · intro hemp
    simp [validateV2, hload, hchk, List.isEmpty_iff, hemp]

/-- C4 witness: on the concrete fixture tree the report is non-empty and
the command prints it and returns no error. -/
theorem validate_accumulates_witness :
    validateV2 wStoreOk wVTStore 0 11 false wValEnv
      = ([Event.printed (.validationErrs 11 3 (checkStateInvariants wTree TotalFilecoin))], none) :=
  (validate_accumulates_and_returns_success wStoreOk wVTStore 0 11 false wValEnv wTree
    rfl rfl).2.1 (by decide)

/-- C8: when setup succeeds the export-sectors command writes one json
line per record delivered before the channel closes plus one line for the
zero-valued record received at close: exactly n plus one lines. -/
theorem exportSectors_line_count
    (root : Cid) (env : ExportEnv) (sectors : List SectorInfo) (tree : StateTreeV2)
    (h1 : env.loadStoreErr = none)
    (h2 : loadStateTreeV2 env.estore env.tstore root = .ok tree)
    (h3 : env.exportErr = none) :
    runExportSectorsCmd root env sectors
      = (sectors.map OutLine.jsonSector ++ [OutLine.jsonSector zeroSectorInfo], none)
  ∧ (runExportSectorsCmd root env sectors).1.length = sectors.length + 1 := by
  have hcmd : runExportSectorsCmd root env sectors = (exportLoop sectors, none) := by
    simp [runExportSectorsCmd, h1, h2, h3]
  refine ⟨?_, ?_⟩
  · rw [hcmd, exportLoop_eq]
  · rw [hcmd]
    simp [exportLoop_eq]

/-- C8 witness: two delivered sectors yield exactly three json lines. -/
theorem exportSectors_line_count_witness :
    runExportSectorsCmd 5 wExportEnv
        [{ miner := 1, sectorNumber := 2 }, { miner := 3, sectorNumber := 4 }]
      = ([{ miner := 1, sectorNumber := 2 }, { miner := 3, sectorNumber := 4 }].map
            OutLine.jsonSector ++ [OutLine.jsonSector zeroSectorInfo], none)
  ∧ (runExportSectorsCmd 5 wExportEnv
        [{ miner := 1, sectorNumber := 2 }, { miner := 3, sectorNumber := 4 }]).1.length
      = [({ miner := 1, sectorNumber := 2 } : SectorInfo),
         { miner := 3, sectorNumber := 4 }].length + 1 :=
  exportSectors_line_count 5 wExportEnv
    [{ miner := 1, sectorNumber := 2 }, { miner := 3, sectorNumber := 4 }] [] rfl rfl rfl

/-- C9: when setup succeeds the debts command prints one debt line per
miner with a strictly negative available balance, showing the negated
balance, prints nothing for miners with zero or positive balance, and
reports a total debt equal to the sum of the negations of exactly the
strictly negative balances. -/
theorem debts_negative_only_and_total
    (env : DebtsEnv) (bf : Int) (available : List (Nat × Int))
    (h1 : env.loadStoreErr = none)
    (h2 : env.burntFundsRes = .ok bf)
    (h3 : env.availableRes = .ok available) :
    runDebtsCmd env
      = ((available.filter (fun p => p.2 < 0)).map (fun p => OutLine.minerDebt p.1 (-p.2))
          ++ [OutLine.burntFunds bf,
              OutLine.totalDebt (((available.filter (fun p => p.2 < 0)).map
                (fun p => -p.2)).sum)],
         none) := by
  simp [runDebtsCmd, h1, h2, h3, debtsLoop_eq]

/-- C9 witness: of four miners, exactly the two with negative balances are
printed and the total is the sum of their negations. -/
theorem debts_negative_only_and_total_witness :
    runDebtsCmd wDebtsEnv
      = (([(1, -5), (2, 3), (3, 0), (4, -2)].filter (fun p => p.2 < 0)).map
            (fun p => OutLine.minerDebt p.1 (-p.2))
          ++ [OutLine.burntFunds 7,
              OutLine.totalDebt ((([((1 : Nat), (-5 : Int)), (2, 3), (3, 0),
                (4, -2)].filter (fun p => p.2 < 0)).map (fun p => -p.2)).sum)],
         none) :=
  debts_negative_only_and_total wDebtsEnv 7 [(1, -5), (2, 3), (3, 0), (4, -2)] rfl rfl rfl

/-- C10: when setup succeeds the balances command prints exactly one line
per miner in the map, carrying the miner's locked funds and an available
balance equal to Balance minus the sum of LockedFunds, PreCommitDeposits
and InitialPledge. -/
theorem balances_one_line_per_miner
    (env : BalancesEnv) (balances : List (Nat × BalanceInfo))
    (h1 : env.loadStoreErr = none)
    (h2 : env.balancesRes = .ok balances) :
    runBalancesCmd env
      = (balances.map (fun p => OutLine.balanceLine p.1 p.2.LockedFunds
          (p.2.Balance - (p.2.LockedFunds + p.2.PreCommitDeposits + p.2.InitialPledge))),
         none)
  ∧ (runBalancesCmd env).1.length = balances.length := by
  have hc : runBalancesCmd env = (balancesLoop balances, none) := by
    simp [runBalancesCmd, h1, h2]
  refine ⟨?_, ?_⟩
  · rw [hc, balancesLoop_eq]
  · rw [hc]
    simp [balancesLoop_eq]

/-- C10 witness: the single fixture miner is printed with locked funds 10
and available balance 65. -/
theorem balances_one_line_per_miner_witness :
    runBalancesCmd wBalancesEnv
      = (([(1, { Balance := 100, LockedFunds := 10, PreCommitDeposits := 5
                 InitialPledge := 20 })] : List (Nat × BalanceInfo)).map
          (fun p => OutLine.balanceLine p.1 p.2.LockedFunds
            (p.2.Balance - (p.2.LockedFunds + p.2.PreCommitDeposits + p.2.InitialPledge))),
         none)
  ∧ (runBalancesCmd wBalancesEnv).1.length
      = ([(1, { Balance := 100, LockedFunds := 10, PreCommitDeposits := 5
                InitialPledge := 20 })] : List (Nat × BalanceInfo)).length :=
  balances_one_line_per_miner wBalancesEnv
    [(1, { Balance := 100, LockedFunds := 10, PreCommitDeposits := 5
           InitialPledge := 20 })] rfl rfl

/-- C1: for both migrate commands, when the earlier steps succeed and the
migration step returns an error, the command returns exactly that error
and FlushBufferedState is never called, so partial migration output is
never flushed to durable storage. -/
theorem migrateCmd_error_returned_and_no_flush
    (root : Cid) (height : Int) (validate : Bool) (env : MigrateEnv) (e : GoError)
    (hload : env.loadStoreErr = none)
    (henv : (loadStateRoot env.store root).2 = none)
    (hmig : env.migrateResult = .error e) :
    (runMigrateV2ToV3Cmd root height validate env).2 = some e
  ∧ noFlushEvents (runMigrateV2ToV3Cmd root height validate env).1 = true
  ∧ (runMigrateV1ToV2Cmd root height validate env).2 = some e
  ∧ noFlushEvents (runMigrateV1ToV2Cmd root height validate env).1 = true := by
  rcases hl : loadStateRoot env.store root with ⟨c, o⟩
  rw [hl] at henv
  simp only at henv
  subst henv
  simp [runMigrateV2ToV3Cmd, runMigrateV1ToV2Cmd, hload, hl, hmig,
    noFlushEvents, Event.isFlush]

/-- C1 witness: on the concrete fixture environment whose migration fails
with a transform error on key 5, both commands return that error and
produce no flush event. -/
theorem migrateCmd_error_returned_and_no_flush_witness :
    (runMigrateV2ToV3Cmd 1 0 false wMigErrEnv).2 = some (.transformErr 5)
  ∧ noFlushEvents (runMigrateV2ToV3Cmd 1 0 false wMigErrEnv).1 = true
  ∧ (runMigrateV1ToV2Cmd 1 0 false wMigErrEnv).2 = some (.transformErr 5)
  ∧ noFlushEvents (runMigrateV1ToV2Cmd 1 0 false wMigErrEnv).1 = true :=
  migrateCmd_error_returned_and_no_flush 1 0 false wMigErrEnv (.transformErr 5)
    rfl rfl rfl

/-- C6: loadStateRoot resolves a state-root identifier by reading the
versioned StateRoot envelope and extracting its Actors tree root, which
is what the migration call receives; when the envelope read fails it
returns the store's error together with the undefined cid, the migrate
command returns that error with no work done (empty trace), and the
wrapped validation path returns before any validation work. -/
theorem loadStateRoot_envelope
    (s1 s2 : EnvelopeStore) (c1 c2 : Cid) (sr : StateRoot) (e : GoError)
    (height : Int) (validate : Bool) (env1 env2 : MigrateEnv)
    (hok : s1 c1 = .ok sr)
    (herr : s2 c2 = .error e)
    (h1a : env1.loadStoreErr = none) (h1b : env1.store = s1)
    (h2a : env2.loadStoreErr = none) (h2b : env2.store = s2) :
    loadStateRoot s1 c1 = (sr.Actors, none)
  ∧ loadStateRoot s2 c2 = (cidUndef, some e)
  ∧ runMigrateV2ToV3Cmd c2 height validate env2 = ([], some e)
  ∧ (runMigrateV2ToV3Cmd c1 height validate env1).1.head?
      = some (.migrateCalled sr.Actors height migration9Cfg)
  ∧ validateV2 s2 env2.tstore height c2 true env2.valEnv = ([], some (.wrapped 1 e)) := by
  subst h1b h2b
  refine ⟨?_, ?_, ?_, ?_, ?_⟩
  · simp [loadStateRoot, hok]
  · simp [loadStateRoot, herr]
  · simp [runMigrateV2ToV3Cmd, h2a, loadStateRoot, herr]
  · cases hm : env1.migrateResult with
    | error e2 => simp [runMigrateV2ToV3Cmd, h1a, loadStateRoot, hok, hm]
    | ok outR =>
      cases hf : env1.flushErr with
      | some e3 => simp [runMigrateV2ToV3Cmd, h1a, loadStateRoot, hok, hm, hf]
      | none =>
        cases validate <;>
          simp [runMigrateV2ToV3Cmd, h1a, loadStateRoot, hok, hm, hf]
  · simp [validateV2, loadStateTreeV2, loadStateRoot, herr]

/-- C6 witness: concrete succeeding and failing envelope reads. -/
theorem loadStateRoot_envelope_witness :
    loadStateRoot wStoreOk 1 = (17, none)
  ∧ loadStateRoot wStoreErr 2 = (cidUndef, some (.storeErr 9))
  ∧ runMigrateV2ToV3Cmd 2 0 false wMigStoreErrEnv = ([], some (.storeErr 9))
  ∧ (runMigrateV2ToV3Cmd 1 0 false wMigOkEnv).1.head?
      = some (.migrateCalled 17 0 migration9Cfg)
  ∧ validateV2 wStoreErr wMigStoreErrEnv.tstore 0 2 true wMigStoreErrEnv.valEnv
      = ([], some (.wrapped 1 (.storeErr 9))) :=
  loadStateRoot_envelope wStoreOk wStoreErr 1 2 { Version := 3, Actors := 17 }
    (.storeErr 9) 0 false wMigOkEnv wMigStoreErrEnv rfl rfl rfl rfl rfl rfl

/-- C7: a successful migrate invocation emits the migrated root's content
identifier together with the elapsed migration duration, and separately
the flush duration; the migration duration is the difference of the two
clock samples taken immediately around the migration call only, and the
flush duration the difference of the two samples taken immediately around
the flush call only. -/
theorem migrate_success_output
    (root : Cid) (height : Int) (env : MigrateEnv) (sr : StateRoot) (outRoot : Cid)
    (h1 : env.loadStoreErr = none)
    (h2 : env.store root = .ok sr)
    (h3 : env.migrateResult = .ok outRoot)
    (h4 : env.flushErr = none) :
    runMigrateV2ToV3Cmd root height false env
      = ([Event.migrateCalled sr.Actors height migration9Cfg,
          Event.printed (.migrated sr.Actors outRoot (env.migEnd - env.migStart)),
          Event.flushCalled outRoot,
          Event.printed (.flushTime outRoot (env.flushEnd - env.flushStart))], none)
  ∧ runMigrateV1ToV2Cmd root height false env
      = ([Event.migrate7Called sr.Actors height,
          Event.printed (.migrated sr.Actors outRoot (env.migEnd - env.migStart)),
          Event.flushCalled outRoot,
          Event.printed (.flushTime outRoot (env.flushEnd - env.flushStart))], none) := by
  constructor <;>
    simp [runMigrateV2ToV3Cmd, runMigrateV1ToV2Cmd, loadStateRoot, h1, h2, h3, h4]

/-- C7 witness: the fixture run prints the migrated root 23 with migration
duration 4 and flush duration 6. -/
theorem migrate_success_output_witness :
    runMigrateV2ToV3Cmd 1 0 false wMigOkEnv
      = ([Event.migrateCalled 17 0 migration9Cfg,
          Event.printed (.migrated 17 23 4),
          Event.flushCalled 23,
          Event.printed (.flushTime 23 6)], none)
  ∧ runMigrateV1ToV2Cmd 1 0 false wMigOkEnv
      = ([Event.migrate7Called 17 0,
          Event.printed (.migrated 17 23 4),
          Event.flushCalled 23,
          Event.printed (.flushTime 23 6)], none) :=
  migrate_success_output 1 0 wMigOkEnv { Version := 3, Actors := 17 } 23 rfl rfl rfl rfl

/-- A lookup that succeeds in the left part of an appended map still
succeeds, with the same node, after the append. -/
theorem findNode_append_left (d e : NodeMap) (j : NodeId) (x : Node)
    (h : findNode j d = some x) : findNode j (d ++ e) = some x := by
  induction d with
  | nil => simp [findNode] at h
  | cons p rest ih =>
    obtain ⟨a, b⟩ := p
    by_cases hj : a = j
    · simp [findNode, hj] at h ⊢
      exact h
    · simp [findNode, hj] at h ⊢
      exact ih h

/-- Appending a binding for an absent key makes its lookup succeed. -/
theorem findNode_append_self (d : NodeMap) (j : NodeId) (n : Node)
    (h : findNode j d = none) : findNode j (d ++ [(j, n)]) = some n := by
  induction d with
  | nil => simp [findNode]
  | cons p rest ih =>
    obtain ⟨a, b⟩ := p
    by_cases hj : a = j
    · simp [findNode, hj] at h
    · simp [findNode, hj] at h ⊢
      exact ih h

/-- The flush worklist only appends to the durable map: every binding
visible before the flush is visible, unchanged, afterwards. -/
theorem flushGo_mono (fuel : Nat) :
    ∀ (o d : NodeMap) (st : List NodeId) (d' : NodeMap),
      flushGo fuel o d st = .ok d' →
      ∀ (j : NodeId) (x : Node), findNode j d = some x → findNode j d' = some x := by
  induction fuel with
  | zero =>
    intro o d st d' h j x hj
    cases st with
    | nil =>
      simp [flushGo] at h
      subst h
      exact hj
    | cons i rest => simp [flushGo] at h
  | succ fuel ih =>
    intro o d st d' h j x hj
    cases st with
    | nil =>
      simp [flushGo] at h
      subst h
      exact hj
    | cons i rest =>
      simp only [flushGo] at h
      split at h
      · exact ih o d rest d' h j x hj
      · split at h
        · rename_i hd n0 ho
          exact ih o (d ++ [(i, n0)]) (n0.children ++ rest) d' h j x
            (findNode_append_left d [(i, n0)] j x hj)
        · exact absurd h (by simp)

/-- After a successful flush every identifier on the initial worklist is
durable. -/
theorem flushGo_covers (fuel : Nat) :
    ∀ (o d : NodeMap) (st : List NodeId) (d' : NodeMap),
      flushGo fuel o d st = .ok d' →
      ∀ i ∈ st, ∃ x, findNode i d' = some x := by
  induction fuel with
  | zero =>
    intro o d st d' h i hi
    cases st with
    | nil => simp at hi
    | cons a rest => simp [flushGo] at h
  | succ fuel ih =>
    intro o d st d' h i hi
    cases st with
    | nil => simp at hi
    | cons a rest =>
      simp only [flushGo] at h
      rcases List.mem_cons.mp hi with rfl | hmem
      · split at h
        · rename_i n0 hd
          exact ⟨n0, flushGo_mono fuel o d rest d' h i n0 hd⟩
        · rename_i hd
          split at h
          · rename_i n0 ho
            exact ⟨n0, flushGo_mono fuel o (d ++ [(i, n0)]) (n0.children ++ rest) d' h i n0
              (findNode_append_self d i n0 hd)⟩
          · exact absurd h (by simp)
      · split at h
        · exact ih o d rest d' h i hmem
        · split at h
          · rename_i hd n0 ho
            exact ih o (d ++ [(a, n0)]) (n0.children ++ rest) d' h i
              (List.mem_append_right _ hmem)
          · exact absurd h (by simp)

/-- Flushing a root that is already durable pops it, does no work, and
succeeds at once. -/
theorem flushGo_succ_durable (fuel : Nat) (o d : NodeMap) (i : NodeId) (x : Node)
    (hx : findNode i d = some x) : flushGo (fuel + 1) o d [i] = .ok d := by
  simp only [flushGo, hx]

/-- C5: flushing the buffered store a second time on the same root
succeeds, performs no further writes, and leaves the whole store exactly
as the first flush left it. -/
theorem flush_idempotent (s : BufStore) (root : NodeId) (s' : BufStore)
    (h : FlushBufferedState s root = .ok s') :
    FlushBufferedState s' root = .ok s' := by
  unfold FlushBufferedState at h
  cases hg : flushGo (flushFuel s) s.overlay s.durable [root] with
  | error e =>
    rw [hg] at h
    simp at h
  | ok d' =>
    rw [hg] at h
    simp at h
    obtain ⟨x, hx⟩ :=
      flushGo_covers (flushFuel s) s.overlay s.durable [root] d' hg root (by simp)
    subst h
    show FlushBufferedState { overlay := [], durable := d' } root
      = .ok { overlay := [], durable := d' }
    unfold FlushBufferedState
    rw [show flushFuel { overlay := [], durable := d' } = 0 + 1 from rfl]
    rw [flushGo_succ_durable 0 [] d' root x hx]

/-- C5 witness: flushing the already-flushed concrete store again succeeds
and changes nothing. -/
theorem flush_idempotent_witness :
    FlushBufferedState wBufStoreFlushed 1 = .ok wBufStoreFlushed :=
  flush_idempotent wBufStore 1 wBufStoreFlushed (by rfl)

/-- Membership after insertion: an element of the tree after inserting p is
p itself or was already present. -/
theorem mem_insertEntry (t : List (MKey × MEntry)) (p r : MKey × MEntry)
    (h : r ∈ insertEntry t p) : r = p ∨ r ∈ t := by
  induction t with
  | nil =>
    simp [insertEntry] at h
    exact Or.inl h
  | cons q rest ih =>
    simp only [insertEntry] at h
    split_ifs at h with h1 h2
    · rcases List.mem_cons.mp h with rfl | h3
      · exact Or.inl rfl
      · exact Or.inr h3
    · rcases List.mem_cons.mp h with rfl | h3
      · exact Or.inl rfl
      · exact Or.inr (List.mem_cons_of_mem q h3)
    · rcases List.mem_cons.mp h with rfl | h3
      · exact Or.inr (List.mem_cons_self r rest)
      · rcases ih h3 with h4 | h4
        · exact Or.inl h4
        · exact Or.inr (List.mem_cons_of_mem q h4)

/-- Insertion preserves strict key sortedness of the output tree. -/
theorem insertEntry_pairwise (t : List (MKey × MEntry)) (p : MKey × MEntry)
    (h : t.Pairwise keyLt) : (insertEntry t p).Pairwise keyLt := by
  induction t with
  | nil => simp [insertEntry]
  | cons q rest ih =>
    rcases List.pairwise_cons.mp h with ⟨hq, hrest⟩
    simp only [insertEntry]
    split_ifs with h1 h2
    · refine List.pairwise_cons.mpr ⟨?_, h⟩
      intro r hr
      rcases List.mem_cons.mp hr with rfl | h3
      · exact h1
      · exact Nat.lt_trans h1 (hq r h3)
    · refine List.pairwise_cons.mpr ⟨?_, hrest⟩
      intro r hr
      exact lt_of_eq_of_lt h2 (hq r hr)
    · refine List.pairwise_cons.mpr ⟨?_, ih hrest⟩
      intro r hr
      rcases mem_insertEntry rest p r hr with rfl | h3
      · exact Nat.lt_of_le_of_ne (Nat.le_of_not_lt h1) (fun hc => h2 hc.symm)
      · exact hq r h3

/-- Inserting a fresh key is, up to permutation, consing the entry. -/
theorem insertEntry_perm (t : List (MKey × MEntry)) (p : MKey × MEntry)
    (hnot : p.1 ∉ t.map Prod.fst) : (insertEntry t p).Perm (p :: t) := by
  induction t with
  | nil => simp [insertEntry]
  | cons q rest ih =>
    simp only [insertEntry]
    split_ifs with h1 h2
    · exact List.Perm.refl _
    · exact absurd (by simp [h2]) hnot
    · have hnot' : p.1 ∉ rest.map Prod.fst := by
        intro hc
        exact hnot (by simp [hc])
      exact ((ih hnot').cons q).trans (List.Perm.swap p q rest)

/-- The collector fold from any sorted accumulator with fresh keys stays
sorted and is a permutation of the accumulator joined with the delivered
entries. -/
theorem buildTree_sorted_perm (l : List (MKey × MEntry)) :
    ∀ acc : List (MKey × MEntry), acc.Pairwise keyLt →
      (acc.map Prod.fst ++ l.map Prod.fst).Nodup →
      (l.foldl insertEntry acc).Pairwise keyLt
        ∧ (l.foldl insertEntry acc).Perm (acc ++ l) := by
  induction l with
  | nil =>
    intro acc hs _
    refine ⟨by simpa using hs, ?_⟩
    simpa using List.Perm.refl acc
  | cons p rest ih =>
    intro acc hs hnd
    have hnd0 : (acc.map Prod.fst ++ p.1 :: rest.map Prod.fst).Nodup := by
      simpa using hnd
    have hnotp : p.1 ∉ acc.map Prod.fst := by
      intro hc
      rcases List.nodup_append.mp hnd0 with ⟨_, _, hdisj⟩
      exact hdisj hc (List.mem_cons_self p.1 (rest.map Prod.fst))
    have hs' := insertEntry_pairwise acc p hs
    have hperm' := insertEntry_perm acc p hnotp
    have hkeys' : ((insertEntry acc p).map Prod.fst).Perm (p.1 :: acc.map Prod.fst) := by
      simpa using hperm'.map Prod.fst
    have hnd' : ((insertEntry acc p).map Prod.fst ++ rest.map Prod.fst).Nodup := by
      have hstep : (acc.map Prod.fst ++ p.1 :: rest.map Prod.fst).Perm
          ((insertEntry acc p).map Prod.fst ++ rest.map Prod.fst) :=
        List.perm_middle.trans ((hkeys'.symm).append_right (rest.map Prod.fst))
      exact hstep.nodup hnd0
    obtain ⟨hps, hpm⟩ := ih (insertEntry acc p) hs' hnd'
    refine ⟨by simpa using hps, ?_⟩
    have hfin : (List.foldl insertEntry (insertEntry acc p) rest).Perm (acc ++ p :: rest) :=
      hpm.trans ((hperm'.append_right rest).trans List.perm_middle.symm)
    simpa using hfin

/-- The workers keep every job's key: the result keys equal the input keys
in order. -/
theorem migrateResults_keys (input : List (MKey × MEntry)) (height : Int) (tf : Transform) :
    (migrateResults input height tf).map Prod.fst = input.map Prod.fst := by
  induction input with
  | nil => rfl
  | cons p rest ih => simpa [migrateResults] using ih

/-- C2: for an input tree with distinct keys, any two runs of the
migration pipeline produce output trees with the same ContentID, whatever
order the collector receives the transformed results in; since worker
count and queue capacities only influence that delivery order, the output
ContentID is independent of maxWorkers, and the driver fixes eight
workers, a job queue of one hundred and a result queue of ten. -/
theorem pipeline_deterministic
    (input : List (MKey × MEntry)) (height : Int) (tf : Transform)
    (d1 d2 : List (MKey × MEntry))
    (hnd : (input.map Prod.fst).Nodup)
    (h1 : d1.Perm (migrateResults input height tf))
    (h2 : d2.Perm (migrateResults input height tf)) :
    treeCid (buildTree d1) = treeCid (buildTree d2)
  ∧ migration9Cfg.MaxWorkers = 8 ∧ migration9Cfg.JobQueueSize = 100
  ∧ migration9Cfg.ResultQueueSize = 10 := by
  have hrk : ((migrateResults input height tf).map Prod.fst).Nodup := by
    rw [migrateResults_keys]
    exact hnd
  have key : ∀ d : List (MKey × MEntry), d.Perm (migrateResults input height tf) →
      (buildTree d).Pairwise keyLt ∧ (buildTree d).Perm d := by
    intro d hd
    have hndd : (d.map Prod.fst).Nodup := ((hd.map Prod.fst).symm).nodup hrk
    obtain ⟨hs, hp⟩ := buildTree_sorted_perm d [] List.Pairwise.nil
      (by simp only [List.map_nil, List.nil_append]; exact hndd)
    exact ⟨hs, by simpa using hp⟩
  obtain ⟨hs1, hp1⟩ := key d1 h1
  obtain ⟨hs2, hp2⟩ := key d2 h2
  have hperm : (buildTree d1).Perm (buildTree d2) :=
    (hp1.trans (h1.trans h2.symm)).trans hp2.symm
  have heq : buildTree d1 = buildTree d2 :=
    List.eq_of_perm_of_sorted hperm hs1 hs2
  exact ⟨congrArg treeCid heq, rfl, rfl, rfl⟩

/-- C2 witness: delivering the two transformed fixture entries in either
order yields the same output-tree ContentID. -/
theorem pipeline_deterministic_witness :
    treeCid (buildTree wDeliveredA) = treeCid (buildTree wDeliveredB)
  ∧ migration9Cfg.MaxWorkers = 8 ∧ migration9Cfg.JobQueueSize = 100
  ∧ migration9Cfg.ResultQueueSize = 10 :=
  pipeline_deterministic wInput 0 wTf wDeliveredA wDeliveredB
    (by decide) (by decide) (by decide)
